import Mathlib

/-!
Shallow embedding of the FAISS-backed in-process vector store of
`src/softtek_llm/vectorStores.py` (class `FAISSVectorStore`), for checking the
natural-language specification against the code.

Modelling conventions:
* Python floats are modelled as `Int` (the claims under study do not depend on
  floating-point rounding).
* Python dicts (namespace registries, metadata) are modelled as insertion-ordered
  association lists with Python's assignment semantics (`dset`): an existing key
  is updated in place, a new key is appended.
* Python exceptions are modelled by returning the post-mutation state together
  with an `Option Err` / `Except Err` outcome, so that mutations performed
  before a raise are preserved (as they are in Python).
* `faiss.IndexFlatIP` and `faiss.normalize_L2` are third-party code not in the
  repository; the index is modelled from the spec (§4.1) and `normalize_L2` is
  an abstract parameter `nrm` of the operations, since no claim depends on the
  numeric content of normalization.
-/

namespace Softtek

/-- Python-dict lookup on an insertion-ordered association list. -/
def dlookup {κ α : Type} [DecidableEq κ] : List (κ × α) → κ → Option α
  | [], _ => none
  | (k', v') :: rest, k => if k' = k then some v' else dlookup rest k

/-- Python `k in d`. -/
def dcontains {κ α : Type} [DecidableEq κ] (l : List (κ × α)) (k : κ) : Bool :=
  (dlookup l k).isSome

/-- Python-dict assignment `d[k] = v`: update in place if the key exists,
append otherwise. -/
def dset {κ α : Type} [DecidableEq κ] : List (κ × α) → κ → α → List (κ × α)
  | [], k, v => [(k, v)]
  | (k', v') :: rest, k, v =>
    if k' = k then (k, v) :: rest else (k', v') :: dset rest k v

/-- Modelled from the spec (§3 VectorRecord): `softtek_llm.schemas.Vector`, a
plain data carrier (id, embeddings, metadata), is imported by the source file
but its module is not under `src/`. Metadata values are modelled as `Int`
(enough for the claims: the only value the core itself writes is the score). -/
structure Vector where
  id : String
  embeddings : List Int
  metadata : List (String × Int)
deriving DecidableEq

def defaultV : Vector := ⟨"", [], []⟩

/-- Modelled from the spec (§4.1 FlatIndex): `faiss.IndexFlatIP`, third-party
code not in the repository. A fixed dimension and an ordered list of stored
rows. -/
structure IndexFlatIP where
  d : Nat
  rows : List (List Int)
deriving DecidableEq

def IndexFlatIP.ntotal (idx : IndexFlatIP) : Nat := idx.rows.length

/-- Inner product of two stored rows (spec §4.1: brute-force scoring). -/
def dotQ (a b : List Int) : Int := (a.zip b).foldl (fun acc p => acc + p.1 * p.2) 0

/-- Modelled from the spec (§4.1): positional removal with compaction,
preserving the relative order of the kept rows. -/
def IndexFlatIP.remove_ids (idx : IndexFlatIP) (positions : List Nat) : IndexFlatIP :=
  ⟨idx.d, (idx.rows.enum.filter (fun p => decide (¬ p.1 ∈ positions))).map Prod.snd⟩

/-- Modelled from the spec (§4.1): clears all rows, the dimension is kept. -/
def IndexFlatIP.reset (idx : IndexFlatIP) : IndexFlatIP := ⟨idx.d, []⟩

/-- Scores of every stored row against a query, paired with row positions. -/
def scoredRows (idx : IndexFlatIP) (q : List Int) : List (Int × Int) :=
  (List.range idx.rows.length).map (fun i => (dotQ q (idx.rows.getD i []), (i : Int)))

/-- Stable descending insertion: `x` goes in front of the first strictly
smaller score, so equal scores keep their insertion order. -/
def insertDesc (x : Int × Int) : List (Int × Int) → List (Int × Int)
  | [] => [x]
  | y :: ys => if y.1 < x.1 then x :: y :: ys else y :: insertDesc x ys

/-- Stable sort by descending score. -/
def sortDesc (l : List (Int × Int)) : List (Int × Int) :=
  l.foldl (fun acc x => insertDesc x acc) []

/-- Modelled from the spec (§4.1): top-k search by inner product, descending
score, ties broken by insertion order (stable sort), padding the output with
the sentinel position `-1` when fewer than `k` rows exist. -/
def IndexFlatIP.searchTop (idx : IndexFlatIP) (q : List Int) (k : Nat) : List Int × List Int :=
  let top := (sortDesc (scoredRows idx q)).take k
  let padded := top ++ List.replicate (k - top.length) ((0 : Int), (-1 : Int))
  (padded.map Prod.fst, padded.map Prod.snd)

/-- Python exception kinds raised by the embedded code. -/
inductive Err where
  | valueError : String → Err
  | typeError : String → Err
  | runtimeError : String → Err
  | keyError : Err
  | indexError : Err
  | attributeError : Err
deriving DecidableEq

instance {ε α : Type} [DecidableEq ε] [DecidableEq α] : DecidableEq (Except ε α)
  | .ok a, .ok b =>
    if h : a = b then .isTrue (by rw [h]) else .isFalse (fun hc => h (Except.ok.inj hc))
  | .ok _, .error _ => .isFalse (fun hc => Except.noConfusion hc)
  | .error _, .ok _ => .isFalse (fun hc => Except.noConfusion hc)
  | .error a, .error b =>
    if h : a = b then .isTrue (by rw [h]) else .isFalse (fun hc => h (Except.error.inj hc))

/-- Python `str(namespace)` as used in the source's error f-strings. -/
def nsToStr : Option String → String
  | none => "None"
  | some s => s

/-- The state of `FAISSVectorStore` (vectorStores.py lines 300-307): two
namespace-keyed registries, `local_id` with the record list and `index` with
the FAISS index of each namespace. The key `none` is the default namespace. -/
structure FAISSVectorStore where
  local_id : List (Option String × List Vector)
  index : List (Option String × IndexFlatIP)
deriving DecidableEq

/-- Record list of a namespace (`[]` when the namespace is absent). -/
def recsAt (st : FAISSVectorStore) (ns : Option String) : List Vector :=
  (dlookup st.local_id ns).getD []

/-- Index rows of a namespace (`[]` when the namespace is absent). -/
def rowsAt (st : FAISSVectorStore) (ns : Option String) : List (List Int) :=
  ((dlookup st.index ns).map IndexFlatIP.rows).getD []

/-- Python truthiness of an optional dict argument (`None` and `{}` are falsy). -/
def isTruthy {κ α : Type} (o : Option (List (κ × α))) : Bool :=
  match o with
  | none => false
  | some l => !l.isEmpty

/-- `FAISSVectorStore.__init__` (lines 300-307): both arguments truthy stores
them as given; both `None` creates the default namespace eagerly with an empty
record list and an empty index of dimension `d`; otherwise `ValueError`. -/
def FAISSVectorStore.init (lo : Option (List (Option String × List Vector)))
    (io : Option (List (Option String × IndexFlatIP))) (d : Nat) :
    Except Err FAISSVectorStore :=
  if isTruthy lo && isTruthy io then .ok ⟨lo.getD [], io.getD []⟩
  else if lo = none && io = none then .ok ⟨[(none, [])], [(none, ⟨d, []⟩)]⟩
  else .error (.valueError "You must provide both local_id and index or neither.")

/-- The validation loop of `FAISSVectorStore.add` (lines 452-465): per record,
first the duplicate check (batch ids accumulated in `seen`, existing namespace
ids in `existing`), then the dimension check against the namespace index's
dimension (`dOpt`; `none` models a missing index entry, a Python `KeyError` at
`self.__index[namespace].d`). -/
def validate_add (existing : List String) (dOpt : Option Nat) :
    List String → List Vector → Option Err
  | _, [] => none
  | seen, v :: rest =>
    if v.id ∈ existing ∨ v.id ∈ seen then
      some (.valueError ("The id " ++ v.id ++ " is duplicated. The ids must be unique."))
    else
      match dOpt with
      | none => some .keyError
      | some d =>
        if v.embeddings.length ≠ d then
          some (.valueError ("Vectors must be size " ++ toString d ++ " but got size "
            ++ toString v.embeddings.length ++ " instead."))
        else validate_add existing dOpt (seen ++ [v.id]) rest

/-- Validation and mutation of `add` after the namespace-creation step (lines
452-477): on validation failure the (possibly already extended) registries are
returned with the error; on success the normalized copies are appended to the
index and the original records to the record list. -/
def addGo (nrm : List Int → List Int) (st : FAISSVectorStore) (vectors : List Vector)
    (ns : Option String) : FAISSVectorStore × Option Err :=
  match dlookup st.local_id ns with
  | none => (st, some .keyError)
  | some recs =>
    match validate_add (recs.map Vector.id) ((dlookup st.index ns).map IndexFlatIP.d) [] vectors with
    | some e => (st, some e)
    | none =>
      match dlookup st.index ns with
      | none => (st, some .keyError)
      | some idx =>
        (⟨dset st.local_id ns (recs ++ vectors),
          dset st.index ns ⟨idx.d, idx.rows ++ vectors.map (fun v => nrm v.embeddings)⟩⟩, none)

/-- `FAISSVectorStore.add` (lines 430-477). A missing namespace is created
before validation (lines 448-450): `self.__local_id[namespace] = list()`
executes before `vectors[0]` is read, so an empty `vectors` on a new namespace
leaves the record-list entry behind and raises `IndexError`. -/
def FAISSVectorStore.add (nrm : List Int → List Int) (st : FAISSVectorStore)
    (vectors : List Vector) (ns : Option String) : FAISSVectorStore × Option Err :=
  if dcontains st.local_id ns then addGo nrm st vectors ns
  else
    match vectors.head? with
    | none => ({ st with local_id := dset st.local_id ns [] }, some .indexError)
    | some v0 =>
      addGo nrm ⟨dset st.local_id ns [], dset st.index ns ⟨v0.embeddings.length, []⟩⟩ vectors ns

/-- `FAISSVectorStore.delete` (lines 479-512) with the two private helpers it
calls inlined: `__return_ids` (lines 319-340) resolves ids to positions and
fails if not all are found; `remove_ids` on the index then runs *before*
`__remove_ids` (lines 410-428), whose length check compares the survivor count
against `len(ids)` and, when it fails, leaves the index already mutated. -/
def FAISSVectorStore.delete (st : FAISSVectorStore) (ids? : Option (List String))
    (delete_all : Bool) (ns : Option String) : FAISSVectorStore × Option Err :=
  if dcontains st.local_id ns then
    match ids? with
    | some ids =>
      let recs := (dlookup st.local_id ns).getD []
      let positions := (recs.enum.filter (fun p => decide (p.2.id ∈ ids))).map Prod.fst
      if positions.length ≠ ids.length then
        (st, some (.valueError "Did not found all the ids provided."))
      else
        match dlookup st.index ns with
        | none => (st, some .keyError)
        | some idx =>
          let st1 : FAISSVectorStore := { st with index := dset st.index ns (idx.remove_ids positions) }
          let newList := recs.filter (fun v => decide (¬ v.id ∈ ids))
          if newList.length ≠ ids.length then
            (st1, some (.valueError "Did not found all the ids provided."))
          else
            ({ st1 with local_id := dset st1.local_id ns newList }, none)
    | none =>
      if delete_all then
        match dlookup st.index ns with
        | none => (st, some .keyError)
        | some idx =>
          (⟨dset st.local_id ns [], dset st.index ns idx.reset⟩, none)
      else (st, some (.valueError "You must provide either ids or delete_all=True"))
  else
    (st, some (.valueError ("The namespace " ++ nsToStr ns ++ " does not exist.")))

/-- A fresh result record as built by `__return_vectors` (lines 394-399): the
matched record's embeddings and id, its metadata with the score entry set. -/
def freshWithScore (v : Vector) (s : Int) : Vector :=
  ⟨v.id, v.embeddings, dset v.metadata "score" s⟩

/-- `FAISSVectorStore.__return_vectors` (lines 369-408): pairs positions with
scores ignoring the sentinel `-1`, resolves each remaining position in the
record list (an unresolvable position leaves `vector_ = None` and raises
`AttributeError`), builds the fresh scored records, and writes each one back
into the record list at its position. Returns (results, updated record list). -/
def return_vectors (recs : List Vector) (I : List Int) (D : List Int) :
    Except Err (List Vector × List Vector) :=
  let pairs := (I.zip D).filter (fun p => decide (p.1 ≠ -1))
  if pairs.all (fun p => decide (0 ≤ p.1 ∧ p.1.toNat < recs.length)) then
    .ok (pairs.map (fun p => freshWithScore (recs.getD p.1.toNat defaultV) p.2),
      pairs.foldl (fun acc p => acc.set p.1.toNat (freshWithScore (recs.getD p.1.toNat defaultV) p.2)) recs)
  else .error .attributeError

/-- `FAISSVectorStore.search` (lines 514-573). An unknown namespace returns
`[]`; an empty index returns `[]`; a supplied vector is normalized and used as
the query; otherwise a (truthy) id reaches the call
`self.__return_embeddings(ids=[id], ...)` (line 561) whose target (line 342)
has no parameter `ids`, so Python raises `TypeError` before any lookup; with
neither, `ValueError`. -/
def FAISSVectorStore.search (nrm : List Int → List Int) (st : FAISSVectorStore)
    (vector? : Option Vector) (id? : Option String) (top_k : Nat) (ns : Option String) :
    FAISSVectorStore × Except Err (List Vector) :=
  if dcontains st.local_id ns then
    match dlookup st.index ns with
    | none => (st, .error .keyError)
    | some idx =>
      if 0 < idx.ntotal then
        match vector? with
        | some v =>
          let DI := idx.searchTop (nrm v.embeddings) top_k
          match dlookup st.local_id ns with
          | none => (st, .error .keyError)
          | some recs =>
            match return_vectors recs DI.2 DI.1 with
            | .ok rn => ({ st with local_id := dset st.local_id ns rn.2 }, .ok rn.1)
            | .error e => (st, .error e)
        | none =>
          match id? with
          | some i =>
            if i = "" then (st, .error (.valueError "You must provide either vector or id."))
            else (st, .error (.typeError "return_embeddings got an unexpected keyword argument ids"))
          | none => (st, .error (.valueError "You must provide either vector or id."))
      else (st, .ok [])
  else (st, .ok [])

/-- `FAISSVectorStore.__return_embeddings` (lines 342-367), as defined (not as
mis-called from `search`): linear scan for the id, normalized copy of the
stored embedding, `ValueError` when absent. -/
def return_embeddings (nrm : List Int → List Int) (recs : List Vector) (i : String)
    (ns : Option String) : Except Err (List Int) :=
  match recs.find? (fun v => v.id == i) with
  | some v => .ok (nrm v.embeddings)
  | none => .error (.valueError ("Did not found the id " ++ i ++ " in the namespace "
      ++ nsToStr ns ++ "."))

/-- The blob-pair base name used by both `save_local` and `load_local`
(lines 606, 613, 676, 682): `index` for the default namespace,
`<namespace>_index` otherwise. -/
def blobBase : Option String → String
  | none => "index"
  | some s => s ++ "_index"

/-- The files written by persistence. Modelled from the spec (§4.6): the
source serializes through `faiss.write_index` / `pickle` (third-party); the
blob is modelled as the opaque serialized object itself, which the spec only
requires to reconstruct it exactly. -/
structure SavedFiles where
  faissFiles : List (String × IndexFlatIP)
  pklFiles : List (String × List Vector)
deriving DecidableEq

/-- `FAISSVectorStore.save_local` with `save_all=True` (lines 600-617): one
`<base>.faiss` / `<base>.pkl` pair per namespace key of the index registry;
`self.__local_id[namespace_]` raises `KeyError` when the registries are out of
sync. -/
def FAISSVectorStore.save_all (st : FAISSVectorStore) : Except Err SavedFiles :=
  if st.index.all (fun kv => dcontains st.local_id kv.1) then
    .ok ⟨st.index.map (fun kv => (blobBase kv.1 ++ ".faiss", kv.2)),
      st.index.map (fun kv => (blobBase kv.1 ++ ".pkl", (dlookup st.local_id kv.1).getD []))⟩
  else .error .keyError

/-- A value of one of the two untyped Python dicts built by `load_local`: the
source can (and does, lines 694-696) put a record list where an index belongs
and vice versa. -/
inductive Slot where
  | recs : List Vector → Slot
  | flat : IndexFlatIP → Slot
deriving DecidableEq

/-- The loop of `FAISSVectorStore.load_local` (lines 671-692): for each
requested namespace read both blobs, storing into `index_` and `local_id_`;
any failure raises `RuntimeError` naming the namespace (no silent skip). -/
def loadLoop (files : SavedFiles) :
    List (Option String) → List (Option String × Slot) → List (Option String × Slot) →
    Except Err (List (Option String × Slot) × List (Option String × Slot))
  | [], lacc, iacc => .ok (lacc, iacc)
  | ns :: rest, lacc, iacc =>
    match dlookup files.faissFiles (blobBase ns ++ ".faiss"),
        dlookup files.pklFiles (blobBase ns ++ ".pkl") with
    | some idx, some recs =>
      loadLoop files rest (dset lacc ns (.recs recs)) (dset iacc ns (.flat idx))
    | _, _ =>
      .error (.runtimeError ("Something wrong happend with the file(s) for the namespace "
        ++ nsToStr ns))

/-- `FAISSVectorStore.load_local` (lines 639-698), returning the pair
`(local_id_, index_)`. When the default namespace was not loaded, lines
694-696 execute `index_[None] = []` and `local_id_[None] = IndexFlatIP(d)` -
the record list goes into the index registry and the index into the record
registry, exactly as in the source. -/
def load_local (files : SavedFiles) (namespaces : List (Option String)) (d : Nat) :
    Except Err (List (Option String × Slot) × List (Option String × Slot)) :=
  match loadLoop files namespaces [] [] with
  | .error e => .error e
  | .ok (lacc, iacc) =>
    if dcontains iacc none then .ok (lacc, iacc)
    else .ok (dset lacc none (.flat ⟨d, []⟩), dset iacc none (.recs []))

/-- The metadata the spec's words prescribe for a search result (§4.5): the
query's metadata as a base, overlaid with the matched record's metadata, then
the score entry set. Stated from the spec, to be compared with the code's
`return_vectors`. -/
def specMergedMetadata (queryMeta matchedMeta : List (String × Int)) (s : Int) :
    List (String × Int) :=
  dset (matchedMeta.foldl (fun acc kv => dset acc kv.1 kv.2) queryMeta) "score" s

/-- A record with id `a` and embedding `[1, 0]`. -/
def va : Vector := ⟨"a", [1, 0], []⟩

/-- A record with id `b` and embedding `[0, 1]`. -/
def vb : Vector := ⟨"b", [0, 1], []⟩

/-- A record with id `c` and embedding `[1, 1]`. -/
def vc : Vector := ⟨"c", [1, 1], []⟩

/-- A store whose default namespace holds the three records `a`, `b`, `c`
with the matching three index rows. -/
def st3 : FAISSVectorStore :=
  ⟨[(none, [va, vb, vc])], [(none, ⟨2, [[1, 0], [0, 1], [1, 1]]⟩)]⟩

/-- A store whose default namespace holds the single record `a` with its
matching index row. -/
def st1 : FAISSVectorStore := ⟨[(none, [va])], [(none, ⟨2, [[1, 0]]⟩)]⟩

/-- A freshly constructed store: empty default namespace of dimension 2. -/
def st0 : FAISSVectorStore := ⟨[(none, [])], [(none, ⟨2, []⟩)]⟩

/-- A record with id `x`. -/
def vx : Vector := ⟨"x", [1, 0], []⟩

/-- The dimension `add` validates against: the namespace index's dimension for
an existing namespace, the first record's embedding length for a namespace
being created (line 450). -/
def expectedDimOpt (st : FAISSVectorStore) (ns : Option String) (vectors : List Vector) :
    Option Nat :=
  if dcontains st.local_id ns then (dlookup st.index ns).map IndexFlatIP.d
  else vectors.head?.map (fun v => v.embeddings.length)

theorem dlookup_dset_self {κ α : Type} [DecidableEq κ] (l : List (κ × α)) (k : κ) (v : α) :
    dlookup (dset l k v) k = some v := by
  induction l with
  | nil => simp [dset, dlookup]
  | cons hd tl ih =>
    by_cases h : hd.1 = k
    · simp [dset, h, dlookup]
    · simp [dset, h, dlookup, ih]

theorem dlookup_dset_ne {κ α : Type} [DecidableEq κ] (l : List (κ × α)) (k k' : κ) (v : α)
    (h : k ≠ k') : dlookup (dset l k v) k' = dlookup l k' := by
  induction l with
  | nil => simp [dset, dlookup, h]
  | cons hd tl ih =>
    by_cases hh : hd.1 = k
    · simp [dset, hh, dlookup, h]
    · simp only [dset, hh, if_false, dlookup]
      by_cases hk : hd.1 = k'
      · simp [hk]
      · simp [hk, ih]

/-- C1: the claim says that after every facade operation the record-list length
equals the index row count of each namespace. It fails on the code:
`delete(ids=["a"])` on a namespace of three records removes row 0 from the
FAISS index, then `__remove_ids` (line 425) compares the *survivor* count (2)
against `len(ids)` (1) and raises, leaving 2 index rows paired with 3 records.
The raise contradicts the helper's own docstring ("if it does not find all the
ids" - all ids were found), so this is a code bug. -/
theorem c1_rowcount_invariant_broken_by_delete :
    (rowsAt (st3.delete (some ["a"]) false none).1 none).length = 2 ∧
    (recsAt (st3.delete (some ["a"]) false none).1 none).length = 3 ∧
    (rowsAt (st3.delete (some ["a"]) false none).1 none).length ≠
      (recsAt (st3.delete (some ["a"]) false none).1 none).length ∧
    (st3.delete (some ["a"]) false none).2
      = some (.valueError "Did not found all the ids provided.") := by decide

/-- C2: the claim says that when all requested ids are present, `delete`
removes exactly those records from both structures. It fails on the code:
deleting the present id `b` from a three-record namespace removes its index
row, then raises `ValueError` (line 425 compares 2 survivors against 1 id) and
leaves all three records in the record list. The all-or-nothing promise on a
missing id does hold (`__return_ids` raises before mutation), but the
successful-path promise is broken by `__remove_ids`'s wrong length check. -/
theorem c2_delete_of_present_ids_still_fails :
    (st3.delete (some ["b"]) false none).2
      = some (.valueError "Did not found all the ids provided.") ∧
    (recsAt (st3.delete (some ["b"]) false none).1 none).map Vector.id = ["a", "b", "c"] ∧
    (rowsAt (st3.delete (some ["b"]) false none).1 none).length = 2 := by decide

/-- C4: the claim says search by id looks up the stored embedding, normalizes
it and uses it as the query. It fails on the code: line 561 calls
`self.__return_embeddings(ids=[id], ...)` but the method (line 342) has no
parameter `ids`, so every id-form search on a non-empty namespace raises
`TypeError` before any lookup; the helper itself, called as defined, would
have produced the normalized stored embedding. -/
theorem c4_search_by_id_raises :
    (st1.search id none (some "a") 1 none).2
      = .error (.typeError "return_embeddings got an unexpected keyword argument ids") ∧
    return_embeddings id [va] "a" none = .ok [1, 0] := by decide

/-- C5 counterexample: the claim says each result's metadata is the query's
metadata as a base overlaid with the matched record's metadata (plus the
score). On the code, a query carrying metadata `qk = 1` matching a record with
empty metadata yields result metadata `score = 1` only - the query's metadata
never enters (`__return_vectors`, lines 394-395, reads only the matched
record's metadata), unlike what the spec's merge (`specMergedMetadata`) would
give. -/
theorem c5_query_metadata_not_merged :
    (st1.search id (some ⟨"q", [1, 0], [("qk", 1)]⟩) none 1 none).2
      = .ok [⟨"a", [1, 0], [("score", 1)]⟩] ∧
    specMergedMetadata [("qk", 1)] [] 1 = [("qk", 1), ("score", 1)] ∧
    ([("score", (1 : Int))] : List (String × Int)) ≠ specMergedMetadata [("qk", 1)] [] 1 := by
  decide

/-- C6 counterexample: the claim says a `DuplicateId` failure leaves the
namespace - registry entry included - unchanged. On the code, adding a batch
with a duplicated id to a namespace that does not yet exist first creates the
registry entries (lines 448-450) and only then validates, so after the raise
the new namespace exists (empty) in the registry. -/
theorem c6_namespace_created_before_validation :
    (st0.add id [vx, vx] (some "ns1")).2
      = some (.valueError "The id x is duplicated. The ids must be unique.") ∧
    dcontains (st0.add id [vx, vx] (some "ns1")).1.local_id (some "ns1") = true ∧
    dcontains st0.local_id (some "ns1") = false := by decide

/-- C7 counterexample: the claim says a record with an empty id makes `add`
fail with `InvalidArgument("missing id")` before all other checks. The FAISS
`add` (lines 430-477) has no id-emptiness check at all: a record with an empty
id is accepted and stored. -/
theorem c7_empty_id_accepted :
    (st0.add id [⟨"", [1, 0], []⟩] none).2 = none ∧
    recsAt (st0.add id [⟨"", [1, 0], []⟩] none).1 none = [⟨"", [1, 0], []⟩] := by decide

/-- C9: the first half of the claim holds - direct construction with neither
argument creates the default namespace eagerly, empty, with an empty index of
the configured dimension. The second half fails on the code: when the default
namespace is not among the loaded ones, `load_local` (lines 694-696) assigns
the empty *record list* to `index_[None]` and the `IndexFlatIP(d)` to
`local_id_[None]` - swapped, contradicting the source's own type annotations
(`Dict[str | None, List[Vector]]` receives an index). -/
theorem c9_default_namespace_eager_but_swapped_on_load :
    FAISSVectorStore.init none none 2 = .ok ⟨[(none, [])], [(none, ⟨2, []⟩)]⟩ ∧
    load_local ⟨[], []⟩ [] 2 = .ok ([(none, .flat ⟨2, []⟩)], [(none, .recs [])]) := by decide

/-- C10: search against a namespace absent from the registry, or against a
namespace whose index holds zero rows, returns an empty result list with no
error, for every query form (lines 545-548, 570-571). -/
theorem c10_search_unknown_or_empty_returns_nil (nrm : List Int → List Int)
    (st : FAISSVectorStore) (vector? : Option Vector) (id? : Option String)
    (k : Nat) (ns : Option String)
    (h : dcontains st.local_id ns = false ∨
      ∃ idx, dlookup st.index ns = some idx ∧ idx.rows = []) :
    st.search nrm vector? id? k ns = (st, .ok []) := by
  unfold FAISSVectorStore.search
  rcases h with h | ⟨idx, hidx, hrows⟩
  · simp [h]
  · by_cases hc : dcontains st.local_id ns
    · simp [hc, hidx, IndexFlatIP.ntotal, hrows]
    · simp [hc]

/-- C10 witness: a never-created namespace on a concrete store, and the
concrete empty default namespace, both yield `[]` for several query forms. -/
theorem c10_search_unknown_or_empty_returns_nil_witness :
    st0.search id (some va) (some "a") 1 (some "never") = (st0, .ok []) ∧
    st0.search id none none 3 none = (st0, .ok []) :=
  ⟨c10_search_unknown_or_empty_returns_nil id st0 (some va) (some "a") 1 (some "never")
      (Or.inl (by decide)),
    c10_search_unknown_or_empty_returns_nil id st0 none none 3 none
      (Or.inr ⟨⟨2, []⟩, by decide, rfl⟩)⟩

/-- C7 (amended): `add` performs no id-emptiness check: a record whose id
passes the duplicate check and whose embedding has the namespace's dimension
is accepted and stored whatever its id is - the empty id included. -/
theorem c7_add_accepts_any_id (nrm : List Int → List Int) (st : FAISSVectorStore)
    (v : Vector) (ns : Option String) (recs : List Vector) (idx : IndexFlatIP)
    (hr : dlookup st.local_id ns = some recs)
    (hi : dlookup st.index ns = some idx)
    (hd : v.embeddings.length = idx.d)
    (hfresh : ¬ v.id ∈ recs.map Vector.id) :
    st.add nrm [v] ns =
      (⟨dset st.local_id ns (recs ++ [v]),
        dset st.index ns ⟨idx.d, idx.rows ++ [nrm v.embeddings]⟩⟩, none) := by
  have hc : dcontains st.local_id ns = true := by simp [dcontains, hr]
  unfold FAISSVectorStore.add
  simp only [hc, if_true]
  unfold addGo
  simp [hr, hi, validate_add, hfresh, hd]

/-- C7 witness: the empty-id record is accepted and stored on a fresh store. -/
theorem c7_add_accepts_any_id_witness :
    st0.add id [⟨"", [1, 0], []⟩] none =
      (⟨dset st0.local_id none ([] ++ [⟨"", [1, 0], []⟩]),
        dset st0.index none ⟨2, [] ++ [[1, 0]]⟩⟩, none) :=
  c7_add_accepts_any_id id st0 ⟨"", [1, 0], []⟩ none [] ⟨2, []⟩ rfl rfl rfl (by decide)

theorem validate_add_shape (existing : List String) (d : Nat) (vectors : List Vector)
    (hlen : ∀ v ∈ vectors, v.embeddings.length = d) :
    ∀ seen, validate_add existing (some d) seen vectors = none ∨
      ∃ x, validate_add existing (some d) seen vectors
        = some (.valueError ("The id " ++ x ++ " is duplicated. The ids must be unique.")) := by
  induction vectors with
  | nil => intro seen; exact Or.inl rfl
  | cons v rest ih =>
    intro seen
    by_cases hdup : v.id ∈ existing ∨ v.id ∈ seen
    · exact Or.inr ⟨v.id, by simp [validate_add, hdup]⟩
    · have hl : v.embeddings.length = d := hlen v (by simp)
      have h2 := ih (fun u hu => hlen u (by simp [hu])) (seen ++ [v.id])
      simpa [validate_add, hdup, hl] using h2

theorem validate_add_none (existing : List String) (dOpt : Option Nat) (vectors : List Vector) :
    ∀ seen, validate_add existing dOpt seen vectors = none →
      (vectors.map Vector.id).Nodup ∧
        ∀ v ∈ vectors, ¬ v.id ∈ existing ∧ ¬ v.id ∈ seen := by
  induction vectors with
  | nil => intro seen _; simp
  | cons v rest ih =>
    intro seen h
    by_cases hdup : v.id ∈ existing ∨ v.id ∈ seen
    · simp [validate_add, hdup] at h
    · match dOpt with
      | none => simp [validate_add, hdup] at h
      | some d =>
        by_cases hl : v.embeddings.length = d
        · have hrest : validate_add existing (some d) (seen ++ [v.id]) rest = none := by
            simpa [validate_add, hdup, hl] using h
          obtain ⟨hnd, hall⟩ := ih (seen ++ [v.id]) hrest
          refine ⟨?_, ?_⟩
          · refine List.nodup_cons.mpr ⟨?_, hnd⟩
            intro hmem
            obtain ⟨u, hu, hui⟩ := List.mem_map.mp hmem
            exact (hall u hu).2 (by simp [hui])
          · intro u hu
            rcases List.mem_cons.mp hu with rfl | hu'
            · exact ⟨fun hx => hdup (Or.inl hx), fun hx => hdup (Or.inr hx)⟩
            · exact ⟨(hall u hu').1, fun hx => (hall u hu').2 (by simp [hx])⟩
        · simp [validate_add, hdup, hl] at h

/-- C6 (amended): a `DuplicateId` validation failure of `add` mutates no
record list and no index rows: the target namespace's record list and rows are
as before (empty, if the namespace was created by this very call), and every
other namespace's registry entries are untouched. The registry *entry* for a
fresh target namespace, however, is created before validation
(`c6_namespace_created_before_validation`). -/
theorem c6_duplicate_id_no_row_mutation (nrm : List Int → List Int) (st : FAISSVectorStore)
    (vectors : List Vector) (ns : Option String) (d : Nat)
    (hd : expectedDimOpt st ns vectors = some d)
    (hlen : ∀ v ∈ vectors, v.embeddings.length = d)
    (hsync : dcontains st.local_id ns = false → dcontains st.index ns = false)
    (hdup : ¬ ((vectors.map Vector.id).Nodup ∧
      ∀ v ∈ vectors, ¬ v.id ∈ (recsAt st ns).map Vector.id)) :
    (∃ x, (st.add nrm vectors ns).2
      = some (.valueError ("The id " ++ x ++ " is duplicated. The ids must be unique."))) ∧
    recsAt (st.add nrm vectors ns).1 ns = recsAt st ns ∧
    rowsAt (st.add nrm vectors ns).1 ns = rowsAt st ns ∧
    ∀ k, ¬ k = ns →
      dlookup (st.add nrm vectors ns).1.local_id k = dlookup st.local_id k ∧
      dlookup (st.add nrm vectors ns).1.index k = dlookup st.index k := by
  by_cases hc : dcontains st.local_id ns
  · obtain ⟨recs, hr⟩ := Option.isSome_iff_exists.mp hc
    have hdm : (dlookup st.index ns).map IndexFlatIP.d = some d := by
      simpa [expectedDimOpt, hc] using hd
    rcases validate_add_shape (recs.map Vector.id) d vectors hlen [] with hnone | ⟨x, hx⟩
    · exfalso
      obtain ⟨hnd, hall⟩ := validate_add_none (recs.map Vector.id) (some d) vectors [] hnone
      exact hdup ⟨hnd, fun v hv => by
        have := (hall v hv).1
        simpa [recsAt, hr] using this⟩
    · have hres : st.add nrm vectors ns = (st, some (.valueError
          ("The id " ++ x ++ " is duplicated. The ids must be unique."))) := by
        unfold FAISSVectorStore.add addGo
        simp only [hc, if_true, hr, hdm, hx]
      refine ⟨⟨x, by rw [hres]⟩, by rw [hres], by rw [hres], fun k _ => by rw [hres]; exact ⟨rfl, rfl⟩⟩
  · have hci : dcontains st.index ns = false := hsync (by simpa using hc)
    have hrn : dlookup st.local_id ns = none := by
      cases ho : dlookup st.local_id ns with
      | none => rfl
      | some r => exact absurd (by simp [dcontains, ho]) hc
    have hin : dlookup st.index ns = none := by
      cases ho : dlookup st.index ns with
      | none => rfl
      | some r =>
        have ht : dcontains st.index ns = true := by simp [dcontains, ho]
        rw [ht] at hci
        simp at hci
    obtain ⟨v0, hv0, hv0d⟩ : ∃ v0, vectors.head? = some v0 ∧ v0.embeddings.length = d := by
      have := hd
      simp only [expectedDimOpt, hc, if_false] at this
      match hh : vectors.head? with
      | none => rw [hh] at this; simp at this
      | some u => rw [hh] at this; simp at this; exact ⟨u, rfl, this⟩
    rcases validate_add_shape ([] : List String) d vectors hlen [] with hnone | ⟨x, hx⟩
    · exfalso
      obtain ⟨hnd, _⟩ := validate_add_none [] (some d) vectors [] hnone
      exact hdup ⟨hnd, fun v hv => by simp [recsAt, hrn]⟩
    · have hres : st.add nrm vectors ns =
          (⟨dset st.local_id ns [], dset st.index ns ⟨v0.embeddings.length, []⟩⟩,
            some (.valueError ("The id " ++ x ++ " is duplicated. The ids must be unique."))) := by
        unfold FAISSVectorStore.add addGo
        simp only [hc, Bool.false_eq_true, if_false, hv0]
        rw [dlookup_dset_self, dlookup_dset_self]
        have hmap : Option.map IndexFlatIP.d (some (⟨v0.embeddings.length, []⟩ : IndexFlatIP))
            = some d := by
          rw [show Option.map IndexFlatIP.d (some (⟨v0.embeddings.length, []⟩ : IndexFlatIP))
            = some v0.embeddings.length from rfl, hv0d]
        simp only [hmap, List.map_nil, hx]
      refine ⟨⟨x, by rw [hres]⟩, ?_, ?_, ?_⟩
      · rw [hres]; simp [recsAt, dlookup_dset_self, hrn]
      · rw [hres]; simp [rowsAt, dlookup_dset_self, hin]
      · intro k hk
        rw [hres]
        constructor
        · exact dlookup_dset_ne st.local_id ns k [] (fun he => hk he.symm)
        · exact dlookup_dset_ne st.index ns k ⟨v0.embeddings.length, []⟩ (fun he => hk he.symm)

/-- C6 witness: the general no-row-mutation theorem applied to a duplicated
batch aimed at a fresh namespace. -/
theorem c6_duplicate_id_no_row_mutation_witness :
    (∃ x, (st0.add id [vx, vx] (some "ns1")).2
      = some (.valueError ("The id " ++ x ++ " is duplicated. The ids must be unique."))) ∧
    recsAt (st0.add id [vx, vx] (some "ns1")).1 (some "ns1") = recsAt st0 (some "ns1") ∧
    rowsAt (st0.add id [vx, vx] (some "ns1")).1 (some "ns1") = rowsAt st0 (some "ns1") ∧
    ∀ k, ¬ k = some "ns1" →
      dlookup (st0.add id [vx, vx] (some "ns1")).1.local_id k = dlookup st0.local_id k ∧
      dlookup (st0.add id [vx, vx] (some "ns1")).1.index k = dlookup st0.index k :=
  c6_duplicate_id_no_row_mutation id st0 [vx, vx] (some "ns1") 2 (by decide) (by decide)
    (by decide) (by decide)

theorem validate_add_first_dim (existing : List String) (d : Nat) (vectors : List Vector)
    (w : Vector) (hnodup : (vectors.map Vector.id).Nodup) :
    ∀ seen, (∀ v ∈ vectors, ¬ v.id ∈ existing ∧ ¬ v.id ∈ seen) →
      vectors.find? (fun v => v.embeddings.length != d) = some w →
      validate_add existing (some d) seen vectors
        = some (.valueError ("Vectors must be size " ++ toString d ++ " but got size "
          ++ toString w.embeddings.length ++ " instead.")) := by
  induction vectors with
  | nil => intro seen _ hf; simp [List.find?] at hf
  | cons v rest ih =>
    intro seen hfresh hf
    have hnd : ¬ (v.id ∈ existing ∨ v.id ∈ seen) := by
      have h1 := hfresh v (by simp)
      tauto
    by_cases hl : v.embeddings.length = d
    · have hf' : rest.find? (fun v => v.embeddings.length != d) = some w := by
        rw [List.find?_cons_of_neg] at hf
        · exact hf
        · simp [hl]
      have hnodup' : (rest.map Vector.id).Nodup := (List.nodup_cons.mp hnodup).2
      have hvnotin : ¬ v.id ∈ rest.map Vector.id := (List.nodup_cons.mp hnodup).1
      have hfresh' : ∀ u ∈ rest, ¬ u.id ∈ existing ∧ ¬ u.id ∈ seen ++ [v.id] := by
        intro u hu
        refine ⟨(hfresh u (by simp [hu])).1, ?_⟩
        intro hmem
        rcases List.mem_append.mp hmem with hmem | hmem
        · exact (hfresh u (by simp [hu])).2 hmem
        · exact hvnotin (List.mem_map.mpr ⟨u, hu, List.mem_singleton.mp hmem⟩)
      have ihh := ih hnodup' (seen ++ [v.id]) hfresh' hf'
      simp [validate_add, hnd, hl, ihh]
    · have hw : w = v := by
        rw [List.find?_cons_of_pos] at hf
        · exact (Option.some.inj hf).symm
        · simp [hl]
      subst hw
      simp [validate_add, hnd, hl]

/-- C8: every record's embedding length must equal the partition's dimension
(inferred from the first record when the partition is being created); the
first mismatching record makes `add` fail with the size error naming the
expected and actual lengths, and no row is added to the index or the record
list. -/
theorem c8_dimension_mismatch_no_mutation (nrm : List Int → List Int)
    (st : FAISSVectorStore) (vectors : List Vector) (ns : Option String) (d : Nat) (w : Vector)
    (hd : expectedDimOpt st ns vectors = some d)
    (hsync : dcontains st.local_id ns = false → dcontains st.index ns = false)
    (hnodup : (vectors.map Vector.id).Nodup)
    (hfresh : ∀ v ∈ vectors, ¬ v.id ∈ (recsAt st ns).map Vector.id)
    (hfind : vectors.find? (fun v => v.embeddings.length != d) = some w) :
    (st.add nrm vectors ns).2 = some (.valueError ("Vectors must be size " ++ toString d
      ++ " but got size " ++ toString w.embeddings.length ++ " instead.")) ∧
    recsAt (st.add nrm vectors ns).1 ns = recsAt st ns ∧
    rowsAt (st.add nrm vectors ns).1 ns = rowsAt st ns := by
  by_cases hc : dcontains st.local_id ns
  · obtain ⟨recs, hr⟩ := Option.isSome_iff_exists.mp hc
    have hdm : (dlookup st.index ns).map IndexFlatIP.d = some d := by
      simpa [expectedDimOpt, hc] using hd
    have hfr : ∀ v ∈ vectors, ¬ v.id ∈ recs.map Vector.id ∧ ¬ v.id ∈ ([] : List String) := by
      intro v hv
      refine ⟨?_, by simp⟩
      have := hfresh v hv
      simpa [recsAt, hr] using this
    have hval := validate_add_first_dim (recs.map Vector.id) d vectors w hnodup [] hfr hfind
    have hres : st.add nrm vectors ns = (st, some (.valueError ("Vectors must be size "
        ++ toString d ++ " but got size " ++ toString w.embeddings.length ++ " instead."))) := by
      unfold FAISSVectorStore.add addGo
      simp only [hc, if_true, hr, hdm, hval]
    exact ⟨by rw [hres], by rw [hres], by rw [hres]⟩
  · have hci : dcontains st.index ns = false := hsync (by simpa using hc)
    have hrn : dlookup st.local_id ns = none := by
      cases ho : dlookup st.local_id ns with
      | none => rfl
      | some r => exact absurd (by simp [dcontains, ho]) hc
    have hin : dlookup st.index ns = none := by
      cases ho : dlookup st.index ns with
      | none => rfl
      | some r =>
        have ht : dcontains st.index ns = true := by simp [dcontains, ho]
        rw [ht] at hci
        simp at hci
    obtain ⟨v0, hv0⟩ : ∃ v0, vectors.head? = some v0 := by
      cases hh : vectors.head? with
      | none =>
        exfalso
        have hnil : vectors = [] := List.head?_eq_none_iff.mp hh
        rw [hnil] at hfind
        simp [List.find?] at hfind
      | some u => exact ⟨u, rfl⟩
    have hv0d : v0.embeddings.length = d := by
      have h2 := hd
      simp only [expectedDimOpt, hc, if_false, hv0] at h2
      simpa using h2
    have hfr : ∀ v ∈ vectors, ¬ v.id ∈ ([] : List String) ∧ ¬ v.id ∈ ([] : List String) := by
      intro v _; simp
    have hval := validate_add_first_dim [] d vectors w hnodup [] hfr hfind
    have hres : st.add nrm vectors ns =
        (⟨dset st.local_id ns [], dset st.index ns ⟨v0.embeddings.length, []⟩⟩,
          some (.valueError ("Vectors must be size " ++ toString d ++ " but got size "
            ++ toString w.embeddings.length ++ " instead."))) := by
      unfold FAISSVectorStore.add addGo
      simp only [hc, Bool.false_eq_true, if_false, hv0]
      rw [dlookup_dset_self, dlookup_dset_self]
      have hmap : Option.map IndexFlatIP.d (some (⟨v0.embeddings.length, []⟩ : IndexFlatIP))
          = some d := by
        rw [show Option.map IndexFlatIP.d (some (⟨v0.embeddings.length, []⟩ : IndexFlatIP))
          = some v0.embeddings.length from rfl, hv0d]
      simp only [hmap, List.map_nil, hval]
    refine ⟨by rw [hres], ?_, ?_⟩
    · rw [hres]
      show (dlookup (dset st.local_id ns []) ns).getD [] = (dlookup st.local_id ns).getD []
      rw [dlookup_dset_self, hrn]
      rfl
    · rw [hres]
      show ((dlookup (dset st.index ns ⟨v0.embeddings.length, []⟩) ns).map
          IndexFlatIP.rows).getD [] = ((dlookup st.index ns).map IndexFlatIP.rows).getD []
      rw [dlookup_dset_self, hin]
      rfl

/-- C8 witness: adding a length-3 vector into the dimension-2 default
namespace fails with the size error and mutates nothing. -/
theorem c8_dimension_mismatch_no_mutation_witness :
    (st0.add id [⟨"z", [1, 2, 3], []⟩] none).2
      = some (.valueError ("Vectors must be size " ++ toString 2 ++ " but got size "
        ++ toString 3 ++ " instead.")) ∧
    recsAt (st0.add id [⟨"z", [1, 2, 3], []⟩] none).1 none = recsAt st0 none ∧
    rowsAt (st0.add id [⟨"z", [1, 2, 3], []⟩] none).1 none = rowsAt st0 none :=
  c8_dimension_mismatch_no_mutation id st0 [⟨"z", [1, 2, 3], []⟩] none 2 ⟨"z", [1, 2, 3], []⟩
    (by decide) (by decide) (by decide) (by decide) (by decide)

theorem mem_insertDesc (x y : Int × Int) (l : List (Int × Int)) (h : x ∈ insertDesc y l) :
    x = y ∨ x ∈ l := by
  induction l with
  | nil => simpa [insertDesc] using h
  | cons z zs ih =>
    by_cases hlt : z.1 < y.1
    · simp only [insertDesc, hlt, if_true] at h
      rcases List.mem_cons.mp h with h | h
      · exact Or.inl h
      · exact Or.inr h
    · simp only [insertDesc, hlt, if_false] at h
      rcases List.mem_cons.mp h with h | h
      · exact Or.inr (by simp [h])
      · rcases ih h with h | h
        · exact Or.inl h
        · exact Or.inr (List.mem_cons.mpr (Or.inr h))

theorem mem_foldl_insertDesc (l : List (Int × Int)) :
    ∀ acc x, x ∈ l.foldl (fun acc y => insertDesc y acc) acc → x ∈ acc ∨ x ∈ l := by
  induction l with
  | nil => intro acc x h; exact Or.inl h
  | cons z zs ih =>
    intro acc x h
    rcases ih (insertDesc z acc) x h with h' | h'
    · rcases mem_insertDesc x z acc h' with h'' | h''
      · exact Or.inr (by simp [h''])
      · exact Or.inl h''
    · exact Or.inr (by simp [h'])

theorem mem_sortDesc (l : List (Int × Int)) (x : Int × Int) (h : x ∈ sortDesc l) : x ∈ l := by
  rcases mem_foldl_insertDesc l [] x h with h' | h'
  · simp at h'
  · exact h'

theorem searchTop_zip_mem (idx : IndexFlatIP) (q : List Int) (k : Nat) (p s : Int)
    (hmem : (p, s) ∈ ((idx.searchTop q k).2.zip (idx.searchTop q k).1))
    (hp : p ≠ -1) :
    ∃ n : Nat, p = (n : Int) ∧ n < idx.rows.length ∧ s = dotQ q (idx.rows.getD n []) := by
  unfold IndexFlatIP.searchTop at hmem
  simp only [List.zip_map'] at hmem
  obtain ⟨x, hx, hxe⟩ := List.mem_map.mp hmem
  obtain ⟨hx2, hx1⟩ : x.2 = p ∧ x.1 = s := ⟨congrArg Prod.fst hxe, congrArg Prod.snd hxe⟩
  rcases List.mem_append.mp hx with hx' | hx'
  · have hsrt : x ∈ sortDesc (scoredRows idx q) := List.take_subset _ _ hx'
    have hsc : x ∈ scoredRows idx q := mem_sortDesc _ _ hsrt
    obtain ⟨i, hi, hie⟩ := List.mem_map.mp hsc
    refine ⟨i, ?_, List.mem_range.mp hi, ?_⟩
    · rw [← hx2, ← hie]
    · rw [← hx1, ← hie]
  · exfalso
    have hx0 : x = ((0 : Int), (-1 : Int)) := List.eq_of_mem_replicate hx'
    exact hp (by rw [← hx2, hx0])

theorem return_vectors_ok (recs : List Vector) (I D : List Int)
    (results updated : List Vector)
    (h : return_vectors recs I D = .ok (results, updated)) :
    ∀ r ∈ results, ∃ p s : Int, (p, s) ∈ I.zip D ∧ p ≠ -1 ∧ 0 ≤ p ∧
      p.toNat < recs.length ∧ r = freshWithScore (recs.getD p.toNat defaultV) s := by
  unfold return_vectors at h
  dsimp only at h
  split at h
  · rename_i hcond
    have hinj := Except.ok.inj h
    have hresults : results = ((I.zip D).filter (fun p => decide (p.1 ≠ -1))).map
        (fun p => freshWithScore (recs.getD p.1.toNat defaultV) p.2) :=
      (congrArg Prod.fst hinj).symm
    intro r hr
    rw [hresults] at hr
    obtain ⟨pp, hpp, hpe⟩ := List.mem_map.mp hr
    obtain ⟨hpmem, hpne⟩ := List.mem_filter.mp hpp
    have hpne' : pp.1 ≠ -1 := of_decide_eq_true hpne
    have hbound := of_decide_eq_true (List.all_eq_true.mp hcond pp hpp)
    exact ⟨pp.1, pp.2, hpmem, hpne', hbound.1, hbound.2, hpe.symm⟩
  · exact absurd h (fun hc => Except.noConfusion hc)

/-- C5 (amended): every result of a vector-form search on a consistent
namespace (index rows paired with records) is a fresh record whose id and
embeddings are those of some stored record, and whose metadata is that
record's metadata with the score entry set to the inner product of the
normalized query with that record's index row; the query's own metadata never
enters. -/
theorem c5_result_construction (nrm : List Int → List Int) (st : FAISSVectorStore)
    (v : Vector) (id? : Option String) (k : Nat) (ns : Option String)
    (recs : List Vector) (idx : IndexFlatIP) (res : List Vector)
    (hr : dlookup st.local_id ns = some recs)
    (hi : dlookup st.index ns = some idx)
    (hres : (st.search nrm (some v) id? k ns).2 = .ok res) :
    ∀ r ∈ res, ∃ p : Nat, p < recs.length ∧ p < idx.rows.length ∧
      r.id = (recs.getD p defaultV).id ∧
      r.embeddings = (recs.getD p defaultV).embeddings ∧
      r.metadata = dset (recs.getD p defaultV).metadata "score"
        (dotQ (nrm v.embeddings) (idx.rows.getD p [])) := by
  have hc : dcontains st.local_id ns = true := by simp [dcontains, hr]
  unfold FAISSVectorStore.search at hres
  rw [hc] at hres
  simp only [if_true] at hres
  rw [hi] at hres
  simp only at hres
  by_cases hnt : 0 < idx.ntotal
  · rw [if_pos hnt] at hres
    rw [hr] at hres
    simp only at hres
    intro r hrmem
    set DI := idx.searchTop (nrm v.embeddings) k with hDI
    match hrv : return_vectors recs DI.2 DI.1 with
    | .error e =>
      rw [hrv] at hres
      exact absurd hres (fun hc => Except.noConfusion hc)
    | .ok rn =>
      rw [hrv] at hres
      simp only at hres
      have hresrn : res = rn.1 := (Except.ok.inj hres).symm
      have hmem := return_vectors_ok recs DI.2 DI.1 rn.1 rn.2 (by rw [hrv]) r
        (by rw [← hresrn]; exact hrmem)
      obtain ⟨p, s, hzip, hpne, hple, hpbound, hre⟩ := hmem
      obtain ⟨n, hpn, hnlen, hs⟩ := searchTop_zip_mem idx (nrm v.embeddings) k p s hzip hpne
      have hptn : p.toNat = n := by rw [hpn]; simp
      refine ⟨p.toNat, hpbound, by rw [hptn]; exact hnlen, ?_, ?_, ?_⟩
      · rw [hre]; rfl
      · rw [hre]; rfl
      · rw [hre]
        show dset (recs.getD p.toNat defaultV).metadata "score" s = _
        rw [hs, hpn]
        simp
  · rw [if_neg hnt] at hres
    simp only at hres
    have : res = [] := (Except.ok.inj hres).symm
    rw [this]
    intro r hrmem
    exact absurd hrmem (List.not_mem_nil r)

/-- C5 witness: the result-construction theorem applied to the one-record
store, a unit query vector carrying its own metadata, and the concrete result
record the search returns. -/
theorem c5_result_construction_witness :
    ∃ p : Nat, p < [va].length ∧
      p < (⟨2, [[1, 0]]⟩ : IndexFlatIP).rows.length ∧
      (⟨"a", [1, 0], [("score", 1)]⟩ : Vector).id = ([va].getD p defaultV).id ∧
      (⟨"a", [1, 0], [("score", 1)]⟩ : Vector).embeddings
        = ([va].getD p defaultV).embeddings ∧
      (⟨"a", [1, 0], [("score", 1)]⟩ : Vector).metadata
        = dset ([va].getD p defaultV).metadata "score"
          (dotQ (id [1, 0]) ((⟨2, [[1, 0]]⟩ : IndexFlatIP).rows.getD p [])) :=
  c5_result_construction id st1 ⟨"q", [1, 0], [("qk", 1)]⟩ none 1 none [va] ⟨2, [[1, 0]]⟩
    [⟨"a", [1, 0], [("score", 1)]⟩] rfl rfl (by decide)
    ⟨"a", [1, 0], [("score", 1)]⟩ (by decide)

theorem strAppend_cancel (a b c : String) (h : a ++ c = b ++ c) : a = b := by
  have hd := congrArg String.data h
  rw [String.data_append, String.data_append] at hd
  exact String.ext (List.append_cancel_right hd)

theorem blobBase_inj (a b : Option String) (h : blobBase a = blobBase b) : a = b := by
  match a, b with
  | none, none => rfl
  | none, some s =>
    exfalso
    have hl := congrArg String.length h
    rw [show blobBase none = "index" from rfl, show blobBase (some s) = s ++ "_index" from rfl,
      String.length_append] at hl
    have h5 : "index".length = 5 := rfl
    have h6 : "_index".length = 6 := rfl
    omega
  | some s, none =>
    exfalso
    have hl := congrArg String.length h
    rw [show blobBase none = "index" from rfl, show blobBase (some s) = s ++ "_index" from rfl,
      String.length_append] at hl
    have h5 : "index".length = 5 := rfl
    have h6 : "_index".length = 6 := rfl
    omega
  | some s, some t =>
    have := strAppend_cancel s t "_index" h
    rw [this]

theorem dlookup_map_keyval {α β : Type} (l : List (Option String × α))
    (nm : Option String → String) (g : Option String → α → β)
    (hinj : ∀ a b, nm a = nm b → a = b) (ns : Option String) :
    dlookup (l.map (fun kv => (nm kv.1, g kv.1 kv.2))) (nm ns)
      = (dlookup l ns).map (g ns) := by
  induction l with
  | nil => simp [dlookup]
  | cons hd tl ih =>
    by_cases h : hd.1 = ns
    · simp [dlookup, h]
    · have hnm : ¬ nm hd.1 = nm ns := fun he => h (hinj _ _ he)
      simp [dlookup, h, hnm, ih]

theorem loadLoop_ok (files : SavedFiles) (F : Option String → IndexFlatIP)
    (P : Option String → List Vector) :
    ∀ (todo : List (Option String)),
      (∀ n ∈ todo, dlookup files.faissFiles (blobBase n ++ ".faiss") = some (F n)) →
      (∀ n ∈ todo, dlookup files.pklFiles (blobBase n ++ ".pkl") = some (P n)) →
      ∀ lacc iacc, ∃ l i, loadLoop files todo lacc iacc = .ok (l, i) ∧
        ∀ ns, (dlookup l ns = if ns ∈ todo then some (.recs (P ns)) else dlookup lacc ns)
          ∧ (dlookup i ns = if ns ∈ todo then some (.flat (F ns)) else dlookup iacc ns) := by
  intro todo
  induction todo with
  | nil =>
    intro _ _ lacc iacc
    exact ⟨lacc, iacc, rfl, fun ns => by simp⟩
  | cons n rest ih =>
    intro hF hP lacc iacc
    have hFn := hF n (by simp)
    have hPn := hP n (by simp)
    obtain ⟨l, i, hloop, hlook⟩ := ih (fun m hm => hF m (by simp [hm]))
      (fun m hm => hP m (by simp [hm]))
      (dset lacc n (.recs (P n))) (dset iacc n (.flat (F n)))
    refine ⟨l, i, ?_, ?_⟩
    · simp only [loadLoop, hFn, hPn]
      exact hloop
    · intro ns
      obtain ⟨hl, hi⟩ := hlook ns
      constructor
      · rw [hl]
        by_cases hrest : ns ∈ rest
        · simp [hrest]
        · by_cases hne : ns = n
          · subst hne
            simp [hrest, dlookup_dset_self]
          · have hnc : ¬ ns ∈ n :: rest := by
              intro hx
              rcases List.mem_cons.mp hx with hx | hx
              · exact hne hx
              · exact hrest hx
            simp [hrest, hnc, hne, dlookup_dset_ne lacc n ns _ (fun he => hne he.symm)]
      · rw [hi]
        by_cases hrest : ns ∈ rest
        · simp [hrest]
        · by_cases hne : ns = n
          · subst hne
            simp [hrest, dlookup_dset_self]
          · have hnc : ¬ ns ∈ n :: rest := by
              intro hx
              rcases List.mem_cons.mp hx with hx | hx
              · exact hne hx
              · exact hrest hx
            simp [hrest, hnc, hne, dlookup_dset_ne iacc n ns _ (fun he => hne he.symm)]

/-- C3: persistence round-trips. `save_local(save_all=True)` writes one blob
pair per namespace, named `index.faiss`/`index.pkl` for the default namespace
and `<namespace>_index.faiss`/`.pkl` otherwise; `load_local` on those blobs
returns every requested namespace's partition - the same index (dimension and
rows, order preserved) and the same record list (ids, embeddings, metadata, in
order). The blob content is the serialized object itself (spec §4.6 only
requires the opaque blob to reconstruct it exactly). -/
theorem c3_save_load_roundtrip (st : FAISSVectorStore) (ns : Option String)
    (idx : IndexFlatIP) (recs : List Vector) (namespaces : List (Option String)) (d : Nat)
    (hsync : st.index.all (fun kv => dcontains st.local_id kv.1) = true)
    (hidx : dlookup st.index ns = some idx)
    (hrecs : dlookup st.local_id ns = some recs)
    (hns : ∀ n ∈ namespaces, dcontains st.index n = true)
    (hmem : ns ∈ namespaces) :
    blobBase none = "index" ∧ (∀ s, blobBase (some s) = s ++ "_index") ∧
    ∃ files : SavedFiles, st.save_all = .ok files ∧
      dlookup files.faissFiles (blobBase ns ++ ".faiss") = some idx ∧
      dlookup files.pklFiles (blobBase ns ++ ".pkl") = some recs ∧
      ∃ lmap imap, load_local files namespaces d = .ok (lmap, imap) ∧
        dlookup lmap ns = some (.recs recs) ∧ dlookup imap ns = some (.flat idx) := by
  refine ⟨rfl, fun s => rfl, ?_⟩
  set files : SavedFiles :=
    ⟨st.index.map (fun kv => (blobBase kv.1 ++ ".faiss", kv.2)),
      st.index.map (fun kv => (blobBase kv.1 ++ ".pkl", (dlookup st.local_id kv.1).getD []))⟩
    with hfiles
  have hsave : st.save_all = .ok files := by
    unfold FAISSVectorStore.save_all
    rw [hsync]
    simp
  have hinjf : ∀ a b : Option String, blobBase a ++ ".faiss" = blobBase b ++ ".faiss" → a = b :=
    fun a b h => blobBase_inj a b (strAppend_cancel _ _ ".faiss" h)
  have hinjp : ∀ a b : Option String, blobBase a ++ ".pkl" = blobBase b ++ ".pkl" → a = b :=
    fun a b h => blobBase_inj a b (strAppend_cancel _ _ ".pkl" h)
  have hfl : ∀ m : Option String, dlookup files.faissFiles (blobBase m ++ ".faiss")
      = (dlookup st.index m).map (fun v => v) := by
    intro m
    exact dlookup_map_keyval st.index (fun k => blobBase k ++ ".faiss") (fun _ v => v) hinjf m
  have hpl : ∀ m : Option String, dlookup files.pklFiles (blobBase m ++ ".pkl")
      = (dlookup st.index m).map (fun _ => (dlookup st.local_id m).getD []) := by
    intro m
    exact dlookup_map_keyval st.index (fun k => blobBase k ++ ".pkl")
      (fun k _ => (dlookup st.local_id k).getD []) hinjp m
  have hfidx : dlookup files.faissFiles (blobBase ns ++ ".faiss") = some idx := by
    rw [hfl ns, hidx]
    rfl
  have hprecs : dlookup files.pklFiles (blobBase ns ++ ".pkl") = some recs := by
    rw [hpl ns, hidx]
    simp [hrecs]
  refine ⟨files, hsave, hfidx, hprecs, ?_⟩
  set F : Option String → IndexFlatIP :=
    fun n => (dlookup files.faissFiles (blobBase n ++ ".faiss")).getD ⟨0, []⟩ with hF
  set P : Option String → List Vector :=
    fun n => (dlookup files.pklFiles (blobBase n ++ ".pkl")).getD [] with hP
  have hFall : ∀ n ∈ namespaces, dlookup files.faissFiles (blobBase n ++ ".faiss")
      = some (F n) := by
    intro n hn
    obtain ⟨idxn, hidxn⟩ := Option.isSome_iff_exists.mp (hns n hn)
    rw [hF]
    simp only
    rw [hfl n, hidxn]
    rfl
  have hPall : ∀ n ∈ namespaces, dlookup files.pklFiles (blobBase n ++ ".pkl")
      = some (P n) := by
    intro n hn
    obtain ⟨idxn, hidxn⟩ := Option.isSome_iff_exists.mp (hns n hn)
    rw [hP]
    simp only
    rw [hpl n, hidxn]
    rfl
  have hFns : F ns = idx := by rw [hF]; simp only; rw [hfidx]; rfl
  have hPns : P ns = recs := by rw [hP]; simp only; rw [hprecs]; rfl
  obtain ⟨l, i, hloop, hlook⟩ := loadLoop_ok files F P namespaces hFall hPall [] []
  have hlns : dlookup l ns = some (.recs recs) := by
    rw [(hlook ns).1, if_pos hmem, hPns]
  have hins : dlookup i ns = some (.flat idx) := by
    rw [(hlook ns).2, if_pos hmem, hFns]
  by_cases hdef : dcontains i none
  · refine ⟨l, i, ?_, hlns, hins⟩
    unfold load_local
    rw [hloop]
    simp [hdef]
  · have hnsnone : ¬ ns = none := by
      intro he
      subst he
      rw [dcontains, hins] at hdef
      simp at hdef
    refine ⟨dset l none (.flat ⟨d, []⟩), dset i none (.recs []), ?_, ?_, ?_⟩
    · unfold load_local
      rw [hloop]
      simp [hdef]
    · rw [dlookup_dset_ne l none ns _ (fun he => hnsnone he.symm), hlns]
    · rw [dlookup_dset_ne i none ns _ (fun he => hnsnone he.symm), hins]

/-- C3 witness: the round-trip theorem applied to a concrete two-namespace
store, loading back both the default namespace and `n1`. -/
theorem c3_save_load_roundtrip_witness :
    blobBase none = "index" ∧ (∀ s, blobBase (some s) = s ++ "_index") ∧
    ∃ files : SavedFiles,
      (FAISSVectorStore.mk [(none, [va]), (some "n1", [vb])]
        [(none, ⟨2, [[1, 0]]⟩), (some "n1", ⟨2, [[0, 1]]⟩)]).save_all = .ok files ∧
      dlookup files.faissFiles (blobBase (some "n1") ++ ".faiss") = some ⟨2, [[0, 1]]⟩ ∧
      dlookup files.pklFiles (blobBase (some "n1") ++ ".pkl") = some [vb] ∧
      ∃ lmap imap, load_local files [none, some "n1"] 2 = .ok (lmap, imap) ∧
        dlookup lmap (some "n1") = some (.recs [vb]) ∧
        dlookup imap (some "n1") = some (.flat ⟨2, [[0, 1]]⟩) :=
  c3_save_load_roundtrip
    (FAISSVectorStore.mk [(none, [va]), (some "n1", [vb])]
      [(none, ⟨2, [[1, 0]]⟩), (some "n1", ⟨2, [[0, 1]]⟩)])
    (some "n1") ⟨2, [[0, 1]]⟩ [vb] [none, some "n1"] 2
    (by decide) (by decide) (by decide) (by decide) (by decide)

end Softtek
